import Mathlib

/-!
# Verification of the table-extraction core of `adu-scraper`

Shallow embedding of `src/pdf_processor.py` (text normalizer, header
classifier, column mapper, group-title extractor, table processor, document
walker) together with spec-modelled definitions for the parts of the
repository that are referenced by `src/scraper.py` but whose source file is
not part of the snapshot (the district-number sanitizer, the provenance-URL
column and the summary-marker row filter of the later processor variant).

Python cells coming out of the PDF extraction are either `None` or a string;
we model them as `Option String`.  Python truthiness, `str(...)` rendering of
`None`, ordered-dict column mappings and slice arithmetic are reproduced
exactly where the source relies on them.
-/

namespace AduScraper

/-- A table cell as produced by pdfplumber: Python `None` or a string. -/
abbrev Cell := Option String

/-- One table row: an ordered list of cells. -/
abbrev Row := List Cell

/-- One raw table: an ordered list of rows. -/
abbrev Table := List Row

/-- A column mapping, Python `dict[int, str]` with insertion order:
an association list from column index to canonical column name. -/
abbrev Mapping := List (Nat × String)

/-- Python `str(cell)`: `None` renders as the string `"None"`. -/
def pyStr : Cell → String
  | none => "None"
  | some s => s

/-- Python truthiness of a cell: `None` and the empty string are falsy. -/
def cellTruthy : Cell → Bool
  | none => false
  | some s => !s.isEmpty

/-- Python `str.lower` restricted to ASCII, which is all the source uses. -/
def pyLower (s : String) : String :=
  String.mk (s.toList.map Char.toLower)

/-- The whitespace characters recognised by Python `str.split()` (and by the
regex class `\s`): space, tab, newline, carriage return, vertical tab,
form feed. -/
def pythonIsSpace (c : Char) : Bool :=
  c = ' ' || c = '\t' || c = '\n' || c = '\r' || c = '\x0b' || c = '\x0c'

/-- Helper for Python `str.split()`: split a character list on whitespace
runs, discarding empty chunks.  The second argument accumulates the current
chunk in reverse. -/
def wsSplitAux : List Char → List Char → List String
  | [], cur => if cur.isEmpty then [] else [String.mk cur.reverse]
  | c :: cs, cur =>
    if pythonIsSpace c then
      if cur.isEmpty then wsSplitAux cs [] else String.mk cur.reverse :: wsSplitAux cs []
    else wsSplitAux cs (c :: cur)

/-- Python `s.split()` with no separator argument. -/
def pySplitWs (s : String) : List String :=
  wsSplitAux s.toList []

/-- `clean_text` (src/pdf_processor.py:28): empty/falsy input maps to `""`;
otherwise newlines are replaced by spaces and whitespace runs collapsed
(`" ".join(text.replace("\n", " ").split())`). -/
def clean_text (text : String) : String :=
  if text.isEmpty then ""
  else " ".intercalate (pySplitWs (String.mk (text.toList.map fun c => if c = '\n' then ' ' else c)))

/-- Does the first list start with the second one?  (Prefix test on
character lists, used to model Python substring containment.) -/
def startsWithL : List Char → List Char → Bool
  | _, [] => true
  | [], _ :: _ => false
  | x :: xs, y :: ys => x = y && startsWithL xs ys

/-- Does the first list contain the second as a contiguous sublist? -/
def hasSubL : List Char → List Char → Bool
  | [], needle => needle.isEmpty
  | x :: xs, needle => startsWithL (x :: xs) needle || hasSubL xs needle

/-- Python `needle in haystack` on strings. -/
def pyIn (needle haystack : String) : Bool :=
  hasSubL haystack.toList needle.toList

/-- First-match association-list lookup, the semantics of a Python dict
whose keys are distinct. -/
def lookupKey {α β : Type} [DecidableEq α] : List (α × β) → α → Option β
  | [], _ => none
  | (k, v) :: rest, key => if key = k then some v else lookupKey rest key

/-- The synonym table of `map_column_name` (src/pdf_processor.py:57),
in source insertion order. -/
def header_map : List (String × String) :=
  [("filing date", "Filing Date"),
   ("case number", "Case Number"),
   ("case", "Case Number"),
   ("address", "Address"),
   ("cnc", "CNC"),
   ("community plan area", "Community Plan Area"),
   ("community plan", "Community Plan Area"),
   ("project description", "Project Description"),
   ("description", "Project Description"),
   ("request type", "Request Type"),
   ("request", "Request Type"),
   ("applicant contact", "Applicant Contact"),
   ("applicant", "Applicant Contact"),
   ("contact", "Applicant Contact")]

/-- The substring pass of `map_column_name`: iterate the synonym table in
order and return the canonical value of the first key contained in the
label. -/
def firstSubMatch (h : String) : List (String × String) → Option String
  | [] => none
  | (k, v) :: rest => if pyIn k h then some v else firstSubMatch h rest

/-- `map_column_name` (src/pdf_processor.py:44): normalize and case-fold the
label, try an exact synonym-table lookup, then the substring pass;
`none` models the Python `None` return. -/
def map_column_name (header : String) : Option String :=
  match lookupKey header_map (pyLower (clean_text header)) with
  | some v => some v
  | none => firstSubMatch (pyLower (clean_text header)) header_map

/-- The header keyword set of `is_header_row` (src/pdf_processor.py:114). -/
def header_terms : List String :=
  ["date", "case", "address", "cnc", "community", "project", "request", "applicant", "contact"]

/-- `is_header_row` (src/pdf_processor.py:100): join the truthy cells
(case-folded, space-separated) and test whether any header keyword occurs
as a substring; the empty row is never a header. -/
def is_header_row (row : Row) : Bool :=
  if row.isEmpty then false
  else
    let row_text := " ".intercalate ((row.filter cellTruthy).map fun c => pyLower (pyStr c))
    header_terms.any fun t => pyIn t row_text

/-- `re.search(r'Council District\s*--\s*(\d+)', title)`, matching at one
fixed position: the literal `"Council District"`, optional whitespace,
`"--"`, optional whitespace, then a maximal nonempty digit run (the greedy
`\d+` capture). -/
def matchCDAt (l : List Char) : Option String :=
  if startsWithL l ("Council District".toList) then
    let r1 := (l.drop 16).dropWhile pythonIsSpace
    match r1 with
    | '-' :: '-' :: r2 =>
      let ds := (r2.dropWhile pythonIsSpace).takeWhile Char.isDigit
      if ds.isEmpty then none else some (String.mk ds)
    | _ => none
  else none

/-- `re.search` scan: try `matchCDAt` at every position, leftmost match
wins. -/
def searchCD : List Char → Option String
  | [] => none
  | x :: xs =>
    match matchCDAt (x :: xs) with
    | some d => some d
    | none => searchCD xs

/-- `extract_district_from_title` (src/pdf_processor.py:86): the regex
capture, or `"Unknown"` when the pattern does not occur. -/
def extract_district_from_title (title : String) : String :=
  match searchCD title.toList with
  | some d => d
  | none => "Unknown"

/-- `STANDARD_COLUMNS` (src/pdf_processor.py:14). -/
def STANDARD_COLUMNS : List String :=
  ["Council District", "Filing Date", "Case Number", "Address", "CNC",
   "Community Plan Area", "Project Description", "Request Type",
   "Applicant Contact", "Is ADU"]

/-- A canonical record: the Python dict keyed by `STANDARD_COLUMNS`.  The
schema is fixed-width, so a structure with one field per canonical column
is an exact model (`map_column_name` only ever produces canonical names,
see `map_column_name_values`). -/
structure Record where
  councilDistrict : String
  filingDate : String
  caseNumber : String
  address : String
  cnc : String
  communityPlanArea : String
  projectDescription : String
  requestType : String
  applicantContact : String
  isAdu : String
deriving Repr, DecidableEq

/-- The record with every canonical column initialized to `""`
(`{col: "" for col in STANDARD_COLUMNS}`). -/
def emptyRecord : Record :=
  ⟨"", "", "", "", "", "", "", "", "", ""⟩

/-- `row_data[name] = v`: dict assignment by canonical column name.  A
non-canonical name leaves the record unchanged; that branch is unreachable
from the source because `map_column_name` only returns canonical names. -/
def setField (r : Record) (name v : String) : Record :=
  if name = "Council District" then { r with councilDistrict := v }
  else if name = "Filing Date" then { r with filingDate := v }
  else if name = "Case Number" then { r with caseNumber := v }
  else if name = "Address" then { r with address := v }
  else if name = "CNC" then { r with cnc := v }
  else if name = "Community Plan Area" then { r with communityPlanArea := v }
  else if name = "Project Description" then { r with projectDescription := v }
  else if name = "Request Type" then { r with requestType := v }
  else if name = "Applicant Contact" then { r with applicantContact := v }
  else if name = "Is ADU" then { r with isAdu := v }
  else r

/-- Is this character a regex word character (`\w`) for the ASCII inputs the
source handles? -/
def isWordChar (c : Char) : Bool :=
  c.isAlphanum || c = '_'

/-- `re.search(r'\badu\b', s)` as a boolean: the first argument records
whether the previous character was a word character (false at the start of
the string), and a match needs non-word characters (or string ends) on both
sides of the literal `"adu"`. -/
def aduScanAux : Bool → List Char → Bool
  | prevW, 'a' :: 'd' :: 'u' :: rest =>
    (!prevW && (match rest with | [] => true | c :: _ => !isWordChar c))
      || aduScanAux true ('d' :: 'u' :: rest)
  | _, c :: rest => aduScanAux (isWordChar c) rest
  | _, [] => false

/-- Word-boundary occurrence of `"adu"` (src/pdf_processor.py:198). -/
def hasAduWord (s : String) : Bool :=
  aduScanAux false s.toList

/-- Row filter (a): `not any(cell for cell in row)` — every cell is
empty/null. -/
def rowAllEmpty (row : Row) : Bool :=
  !(row.any cellTruthy)

/-- Row filter (c) (src/pdf_processor.py:186): a district group-title row —
more than one cell, `"Council District"` occurs in the first cell's string
rendering, and every other cell stringifies (lower-cased) to `"none"`
(which is how Python `None` cells render). -/
def isDistrictTitleRow (row : Row) : Bool :=
  match row with
  | [] => false
  | c :: rest =>
    !rest.isEmpty && pyIn "Council District" (pyStr c)
      && rest.all fun cell => pyLower (pyStr cell) = "none"

/-- The cell-copy loop of `process_table` (src/pdf_processor.py:192): for
each cell whose index is in the mapping, store the cleaned cell text under
the mapped canonical name. -/
def applyCells : Record → Mapping → Nat → Row → Record
  | r, _, _, [] => r
  | r, m, i, c :: cs =>
    let r2 := match lookupKey m i with
      | some name => setField r name (clean_text (pyStr c))
      | none => r
    applyCells r2 m (i + 1) cs

/-- Build one canonical record from a surviving data row
(src/pdf_processor.py:189-198): initialize every column to `""`, stamp the
district group key, copy mapped cells, then derive the `"Is ADU"` flag from
the project description. -/
def buildRecord (district : String) (m : Mapping) (row : Row) : Record :=
  let r0 := { emptyRecord with councilDistrict := district }
  let r1 := applyCells r0 m 0 row
  { r1 with isAdu := if hasAduWord (pyLower r1.projectDescription) then "true" else "false" }

/-- Should the data loop of `process_table` skip this row?  Tests, in
source order: all-empty, header re-classification, district group-title. -/
def skipRow (row : Row) : Bool :=
  (rowAllEmpty row || is_header_row row) || isDistrictTitleRow row

/-- The data-row loop of `process_table` (src/pdf_processor.py:180-204)
over an already-sliced row list. -/
def dataLoop (rows : List Row) (district : String) (m : Mapping) : List Record :=
  match rows with
  | [] => []
  | row :: rest =>
    if rowAllEmpty row || is_header_row row then dataLoop rest district m
    else if isDistrictTitleRow row then dataLoop rest district m
    else buildRecord district m row :: dataLoop rest district m

/-- The per-row mapping construction of `find_header_row`
(src/pdf_processor.py:141-147): truthy cells whose label resolves get an
entry `index ↦ canonical name`, in index order. -/
def rowMapping : Nat → Row → Mapping
  | _, [] => []
  | j, c :: cs =>
    if cellTruthy c then
      match map_column_name (pyStr c) with
      | some std => (j, std) :: rowMapping (j + 1) cs
      | none => rowMapping (j + 1) cs
    else rowMapping (j + 1) cs

/-- `find_header_row` (src/pdf_processor.py:123): the first row that
classifies as a header and yields a non-empty mapping, with its index.
Python signals absence as `(-1, {})`; we model that as `none`. -/
def find_header_row : Table → Option (Nat × Mapping)
  | [] => none
  | r :: rs =>
    if is_header_row r && !(rowMapping 0 r).isEmpty then some (0, rowMapping 0 r)
    else (find_header_row rs).map fun p => (p.1 + 1, p.2)

/-- `process_table` (src/pdf_processor.py:153): with a falsy mapping
(Python `None` or `{}`, modelled as `[]`), search for a header row and start
at the row after it; with a supplied mapping start at row 0.  In both cases
the slice `table[start_idx:-1]` drops the final row. -/
def process_table (table : Table) (district : String) (column_mapping : Mapping) :
    List Record × Mapping :=
  if column_mapping.isEmpty then
    match find_header_row table with
    | none => ([], [])
    | some (h, m) => (dataLoop (table.dropLast.drop (h + 1)) district m, m)
  else
    (dataLoop table.dropLast district column_mapping, column_mapping)

/-- The loop state of `extract_tables_from_pdf` (src/pdf_processor.py:219):
current district (Python `None` modelled as `""`, which is equally falsy),
current column mapping (Python `None`/`{}` modelled as `[]`, equally falsy),
the buffered continuation rows, and the accumulated records. -/
structure WalkState where
  district : String
  mapping : Mapping
  currentTable : Table
  allData : List Record
deriving Repr, DecidableEq

/-- `str(table[0][0]) if table[0] and table[0][0] else ""`
(src/pdf_processor.py:259): the first cell's rendering, or `""` when the
first row or first cell is falsy. -/
def firstCellStr (t : Table) : String :=
  match t with
  | [] => ""
  | row :: _ =>
    match row with
    | [] => ""
    | c :: _ => if cellTruthy c then pyStr c else ""

/-- One iteration of the per-table loop of `extract_tables_from_pdf`
(src/pdf_processor.py:245-290): skip tables with fewer than 2 rows; on a
district group-title first cell, flush the buffered rows of the previous
group and reset district/mapping; then, with an active district, either
buffer a continuation table (active mapping, no header row anywhere) or run
`process_table`, resetting the buffer to this table when a new mapping is
returned and extending the buffer otherwise. -/
def walkStep (s : WalkState) (table : Table) : WalkState :=
  if table.length < 2 then s
  else
    let fc := firstCellStr table
    let s1 :=
      if pyIn "Council District" fc then
        let s0 :=
          if !s.currentTable.isEmpty && !s.district.isEmpty && !s.mapping.isEmpty then
            { s with
              allData := s.allData ++ (process_table s.currentTable s.district s.mapping).1,
              currentTable := [] }
          else s
        { s0 with district := extract_district_from_title fc, mapping := [] }
      else s
    if s1.district.isEmpty then s1
    else
      if !s1.mapping.isEmpty && !(table.any is_header_row) then
        { s1 with currentTable := s1.currentTable ++ table }
      else
        let pr := process_table table s1.district s1.mapping
        if !pr.2.isEmpty then
          { s1 with mapping := pr.2, currentTable := table, allData := s1.allData ++ pr.1 }
        else
          { s1 with currentTable := s1.currentTable ++ table, allData := s1.allData ++ pr.1 }

/-- The final flush of `extract_tables_from_pdf` (src/pdf_processor.py:293):
process any buffered rows once more when district and mapping are active. -/
def finalFlush (s : WalkState) : List Record :=
  if !s.currentTable.isEmpty && !s.district.isEmpty && !s.mapping.isEmpty then
    s.allData ++ (process_table s.currentTable s.district s.mapping).1
  else s.allData

/-- `extract_tables_from_pdf` (src/pdf_processor.py:209) over the document's
tables in encounter order (pages flattened: the page loop only iterates). -/
def extract_tables (tables : List Table) : List Record :=
  finalFlush (tables.foldl walkStep ⟨"", [], [], []⟩)

/-! ## Spec-modelled definitions

`src/scraper.py` invokes `process_pdf(pdf_path, pdf_url)` with two
arguments, but the processor variant under `src/` accepts only a path and
has neither a district sanitizer, nor a provenance column, nor a
summary-marker row filter; the later processor variant the spec describes
is not part of the snapshot.  The definitions below model those three
missing pieces from the spec's words. -/

/-- Python `int(s)`: strip surrounding whitespace, allow one optional sign,
then a nonempty digit run; anything else raises (modelled as `none`). -/
def pyParseInt (s : String) : Option Int :=
  let t := ((s.toList.dropWhile pythonIsSpace).reverse.dropWhile pythonIsSpace).reverse
  let digitsVal : List Char → Nat := fun ds => ds.foldl (fun n c => 10 * n + (c.toNat - 48)) 0
  match t with
  | '+' :: ds =>
    if !ds.isEmpty && ds.all Char.isDigit then some (digitsVal ds) else none
  | '-' :: ds =>
    if !ds.isEmpty && ds.all Char.isDigit then some (-(digitsVal ds : Int)) else none
  | ds =>
    if !ds.isEmpty && ds.all Char.isDigit then some (digitsVal ds) else none

/-- Modelled from the spec: the Field Sanitizer's district-number validator,
absent from the processor variant under `src/`.  Attempt an integer parse
and accept values in `[1,15]` as their canonical numeral; when the parse
fails and the string is longer than one character, retry on all characters
after the first (the spec's own test vector `"16" ↦ ""` fixes that the
retry applies only to parse failures, not to out-of-bounds values);
everything else is rejected as `""`. -/
def validate_district (s : String) : String :=
  match pyParseInt s with
  | some n => if 1 ≤ n && n ≤ 15 then toString n else ""
  | none =>
    if 1 < s.length then
      match pyParseInt (s.drop 1) with
      | some n => if 1 ≤ n && n ≤ 15 then toString n else ""
      | none => ""
    else ""

/-- Every string the district validator can return: `""` or a numeral in
`[1,15]`. -/
def districtOutputs : List String :=
  "" :: (List.range 15).map fun k => toString (k + 1)

/-- Modelled from the spec: the later variant's canonical schema, the
`src/` schema plus a provenance column holding the source document's
retrieval URL (its exact column label is not in the snapshot; we call it
`"PDF URL"`). -/
def STANDARD_COLUMNS_V2 : List String :=
  STANDARD_COLUMNS ++ ["PDF URL"]

/-- A canonical record of the later processor variant: the `src/` columns
plus the provenance URL. -/
structure RecordV2 where
  councilDistrict : String
  filingDate : String
  caseNumber : String
  address : String
  cnc : String
  communityPlanArea : String
  projectDescription : String
  requestType : String
  applicantContact : String
  isAdu : String
  pdfUrl : String
deriving Repr, DecidableEq

/-- The all-empty later-variant record. -/
def emptyRecordV2 : RecordV2 :=
  ⟨"", "", "", "", "", "", "", "", "", "", ""⟩

/-- Dict assignment by canonical column name for the later-variant record. -/
def setFieldV2 (r : RecordV2) (name v : String) : RecordV2 :=
  if name = "Council District" then { r with councilDistrict := v }
  else if name = "Filing Date" then { r with filingDate := v }
  else if name = "Case Number" then { r with caseNumber := v }
  else if name = "Address" then { r with address := v }
  else if name = "CNC" then { r with cnc := v }
  else if name = "Community Plan Area" then { r with communityPlanArea := v }
  else if name = "Project Description" then { r with projectDescription := v }
  else if name = "Request Type" then { r with requestType := v }
  else if name = "Applicant Contact" then { r with applicantContact := v }
  else if name = "Is ADU" then { r with isAdu := v }
  else if name = "PDF URL" then { r with pdfUrl := v }
  else r

/-- Modelled from the spec: the later variant's cell-copy loop — mapped
cells are cleaned and stored, and a cell whose canonical column is the
district column is additionally passed through the sanitizer before
storing (spec §4.6). -/
def applyCellsV2 : RecordV2 → Mapping → Nat → Row → RecordV2
  | r, _, _, [] => r
  | r, m, i, c :: cs =>
    let r2 := match lookupKey m i with
      | some name =>
        let v := clean_text (pyStr c)
        setFieldV2 r name (if name = "Council District" then validate_district v else v)
      | none => r
    applyCellsV2 r2 m (i + 1) cs

/-- Modelled from the spec: build one later-variant record — every schema
column starts `""`, the grouping key is stamped into the district column
and the retrieval URL into the provenance column, mapped cells are copied,
then the ADU flag is derived from the description (spec §4.6). -/
def buildRecordV2 (district url : String) (m : Mapping) (row : Row) : RecordV2 :=
  let r0 := { emptyRecordV2 with councilDistrict := district, pdfUrl := url }
  let r1 := applyCellsV2 r0 m 0 row
  { r1 with isAdu := if hasAduWord (pyLower r1.projectDescription) then "true" else "false" }

/-- Modelled from the spec: the later variant's summary-marker row filter
(check (d) of spec §4.6) — a fixed literal substring check, the
`"records:"` counter line, against the row's cell renderings. -/
def isSummaryRow (row : Row) : Bool :=
  row.any fun c => pyIn "records:" (pyLower (pyStr c))

/-- The later variant's data-row filter: the `src/` checks (a) empty,
(b) header re-classification, (c) district group-title, then the modelled
check (d) summary marker, in the spec's order. -/
def skipRowV2 (row : Row) : Bool :=
  ((rowAllEmpty row || is_header_row row) || isDistrictTitleRow row) || isSummaryRow row

/-- Modelled from the spec: the later variant's data-row loop, applying the
four filters in order. -/
def dataLoopV2 (rows : List Row) (district url : String) (m : Mapping) : List RecordV2 :=
  match rows with
  | [] => []
  | row :: rest =>
    if rowAllEmpty row || is_header_row row then dataLoopV2 rest district url m
    else if isDistrictTitleRow row then dataLoopV2 rest district url m
    else if isSummaryRow row then dataLoopV2 rest district url m
    else buildRecordV2 district url m row :: dataLoopV2 rest district url m

/-- Modelled from the spec: the later variant's `process_table`, identical
to the `src/` control flow (header search when no mapping is supplied, the
`table[start_idx:-1]` slice) with the later-variant row loop. -/
def processTableV2 (table : Table) (district url : String) (column_mapping : Mapping) :
    List RecordV2 × Mapping :=
  if column_mapping.isEmpty then
    match find_header_row table with
    | none => ([], [])
    | some (h, m) => (dataLoopV2 (table.dropLast.drop (h + 1)) district url m, m)
  else
    (dataLoopV2 table.dropLast district url column_mapping, column_mapping)

/-- Later-variant walker state. -/
structure WalkStateV2 where
  district : String
  mapping : Mapping
  currentTable : Table
  allData : List RecordV2
deriving Repr, DecidableEq

/-- Modelled from the spec: flushing the later-variant walker's buffered
continuation rows through the processor — performed both on a group change
and at document end (spec §4.7, steps 3 and 6). -/
def flushStateV2 (url : String) (s : WalkStateV2) : WalkStateV2 :=
  if !s.currentTable.isEmpty && !s.district.isEmpty && !s.mapping.isEmpty then
    { s with
      allData := s.allData ++ (processTableV2 s.currentTable s.district url s.mapping).1,
      currentTable := [] }
  else s

/-- Modelled from the spec: the later-variant walker's reaction to a table's
first cell — on a group-title cell, flush the previous group's buffer, then
switch the group key and reset the mapping (spec §4.7, step 3). -/
def newGroupStateV2 (url : String) (s : WalkStateV2) (fc : String) : WalkStateV2 :=
  if pyIn "Council District" fc then
    { flushStateV2 url s with district := extract_district_from_title fc, mapping := [] }
  else s

/-- Modelled from the spec: the later-variant walker's handling of one
table once the group-title reaction has been applied — continuation
buffering, or processing with buffer reset/extension (spec §4.7,
steps 4-5). -/
def walkStepV2Core (url : String) (s1 : WalkStateV2) (table : Table) : WalkStateV2 :=
  if s1.district.isEmpty then s1
  else
    if !s1.mapping.isEmpty && !(table.any is_header_row) then
      { s1 with currentTable := s1.currentTable ++ table }
    else
      if !(processTableV2 table s1.district url s1.mapping).2.isEmpty then
        { s1 with
          mapping := (processTableV2 table s1.district url s1.mapping).2,
          currentTable := table,
          allData := s1.allData ++ (processTableV2 table s1.district url s1.mapping).1 }
      else
        { s1 with
          currentTable := s1.currentTable ++ table,
          allData := s1.allData ++ (processTableV2 table s1.district url s1.mapping).1 }

/-- Modelled from the spec: one iteration of the later variant's document
walk, the `src/` control flow with the later-variant processor and the
retrieval URL threaded through (spec §4.7). -/
def walkStepV2 (url : String) (s : WalkStateV2) (table : Table) : WalkStateV2 :=
  if table.length < 2 then s
  else walkStepV2Core url (newGroupStateV2 url s (firstCellStr table)) table

/-- Modelled from the spec: processing one downloaded document with its
retrieval URL supplied — walk every table, then flush the buffer once
more. -/
def extractTablesV2 (url : String) (tables : List Table) : List RecordV2 :=
  (flushStateV2 url (tables.foldl (walkStepV2 url) ⟨"", [], [], []⟩)).allData

/-! ## Helper lemmas -/

/-- Every list starts with itself. -/
theorem startsWithL_self : ∀ l : List Char, startsWithL l l = true := by
  intro l
  induction l with
  | nil => rfl
  | cons c cs ih => simp [startsWithL, ih]

/-- Every string contains itself as a substring. -/
theorem pyIn_self (s : String) : pyIn s s = true := by
  unfold pyIn
  cases h : s.toList with
  | nil => simp [hasSubL]
  | cons c cs => simp [hasSubL, startsWithL_self]

/-- A successful association-list lookup comes from a list member. -/
theorem lookupKey_mem {α β : Type} [DecidableEq α] :
    ∀ (l : List (α × β)) (k : α) (v : β), lookupKey l k = some v → (k, v) ∈ l := by
  intro l
  induction l with
  | nil => intro k v h; simp [lookupKey] at h
  | cons p rest ih =>
    intro k v h
    obtain ⟨pk, pv⟩ := p
    simp only [lookupKey] at h
    split at h
    case isTrue heq =>
      injection h with hv
      subst heq
      subst hv
      exact List.mem_cons_self _ _
    case isFalse heq =>
      exact List.mem_cons_of_mem _ (ih k v h)

/-- If no key of the table occurs in the label (as a substring, which
includes equality), the exact lookup fails. -/
theorem lookupKey_eq_none {l : List (String × String)} {h : String}
    (hyp : ∀ p ∈ l, pyIn p.1 h = false) : lookupKey l h = none := by
  induction l with
  | nil => rfl
  | cons p rest ih =>
    obtain ⟨pk, pv⟩ := p
    have hp : pyIn pk h = false := hyp (pk, pv) (List.mem_cons_self _ _)
    simp only [lookupKey]
    have hk : h ≠ pk := by
      intro he
      rw [he] at hp
      rw [pyIn_self] at hp
      exact Bool.true_eq_false.mp hp
    rw [if_neg hk]
    exact ih fun p hm => hyp p (List.mem_cons_of_mem _ hm)

/-- If no key of the table occurs in the label, the substring pass fails. -/
theorem firstSubMatch_eq_none {l : List (String × String)} {h : String}
    (hyp : ∀ p ∈ l, pyIn p.1 h = false) : firstSubMatch h l = none := by
  induction l with
  | nil => rfl
  | cons p rest ih =>
    obtain ⟨pk, pv⟩ := p
    have hp : pyIn pk h = false := hyp (pk, pv) (List.mem_cons_self _ _)
    simp only [firstSubMatch, hp, Bool.false_eq_true, if_false]
    exact ih fun p hm => hyp p (List.mem_cons_of_mem _ hm)

/-- A successful substring pass returns one of the table's values. -/
theorem firstSubMatch_mem {h v : String} :
    ∀ {l : List (String × String)}, firstSubMatch h l = some v → v ∈ l.map Prod.snd := by
  intro l
  induction l with
  | nil => intro hf; simp [firstSubMatch] at hf
  | cons p rest ih =>
    intro hf
    obtain ⟨pk, pv⟩ := p
    simp only [firstSubMatch] at hf
    by_cases hc : pyIn pk h = true
    · simp only [hc, if_true, Option.some.injEq] at hf
      subst hf
      simp
    · simp only [hc, if_false] at hf
      simp only [List.map_cons]
      exact List.mem_cons_of_mem _ (ih hf)

/-- `map_column_name` only returns canonical names from the synonym
table's value column. -/
theorem map_column_name_values {h v : String} (hm : map_column_name h = some v) :
    v ∈ header_map.map Prod.snd := by
  unfold map_column_name at hm
  cases hl : lookupKey header_map (pyLower (clean_text h)) with
  | some w =>
    rw [hl] at hm
    simp only [Option.some.injEq] at hm
    subst hm
    exact List.mem_map.mpr ⟨_, lookupKey_mem _ _ _ hl, rfl⟩
  | none =>
    rw [hl] at hm
    exact firstSubMatch_mem hm

/-- Values stored into a row's column mapping all come from the synonym
table's value column. -/
theorem rowMapping_values :
    ∀ (row : Row) (i : Nat) (p : Nat × String),
      p ∈ rowMapping i row → p.2 ∈ header_map.map Prod.snd := by
  intro row
  induction row with
  | nil => intro i p hp; simp [rowMapping] at hp
  | cons c cs ih =>
    intro i p hp
    simp only [rowMapping] at hp
    by_cases ht : cellTruthy c = true
    · rw [if_pos ht] at hp
      cases hmc : map_column_name (pyStr c) with
      | some std =>
        rw [hmc] at hp
        rcases List.mem_cons.mp hp with h1 | h2
        · subst h1
          exact map_column_name_values hmc
        · exact ih (i + 1) p h2
      | none =>
        rw [hmc] at hp
        exact ih (i + 1) p hp
    · rw [if_neg ht] at hp
      exact ih (i + 1) p hp

/-- What a successful header search guarantees: the returned index holds a
row that classifies as a header, whose mapping is the returned (non-empty)
mapping. -/
theorem find_header_row_spec :
    ∀ (T : Table) (h : Nat) (m : Mapping),
      find_header_row T = some (h, m) →
      ∃ r, T[h]? = some r ∧ is_header_row r = true ∧ rowMapping 0 r = m ∧ m ≠ [] := by
  intro T
  induction T with
  | nil => intro h m hf; simp [find_header_row] at hf
  | cons r rs ih =>
    intro h m hf
    simp only [find_header_row] at hf
    by_cases hc : (is_header_row r && !(rowMapping 0 r).isEmpty) = true
    · rw [if_pos hc] at hf
      simp only [Option.some.injEq, Prod.mk.injEq] at hf
      obtain ⟨h0, hm⟩ := hf
      subst h0
      simp only [Bool.and_eq_true, Bool.not_eq_true', List.isEmpty_eq_false] at hc
      refine ⟨r, by simp, hc.1, hm, ?_⟩
      subst hm
      exact hc.2
    · rw [if_neg hc] at hf
      rw [Option.map_eq_some'] at hf
      obtain ⟨⟨h', m'⟩, hfind, heq⟩ := hf
      simp only [Prod.mk.injEq] at heq
      obtain ⟨hh, hm⟩ := heq
      subst hh
      subst hm
      obtain ⟨row, hget, hhdr, hmap, hne⟩ := ih h' m' hfind
      exact ⟨row, by simpa using hget, hhdr, hmap, hne⟩

/-- The data loop is the row filter followed by record construction. -/
theorem dataLoop_eq (rows : List Row) (d : String) (m : Mapping) :
    dataLoop rows d m = (rows.filter fun r => !skipRow r).map (buildRecord d m) := by
  induction rows with
  | nil => rfl
  | cons row rest ih =>
    by_cases h1 : (rowAllEmpty row || is_header_row row) = true
    · have hs : skipRow row = true := by simp [skipRow, h1]
      simp [dataLoop, h1, hs, ih]
    · rw [Bool.not_eq_true] at h1
      by_cases h2 : isDistrictTitleRow row = true
      · have hs : skipRow row = true := by simp [skipRow, h2]
        simp [dataLoop, h1, h2, hs, ih]
      · rw [Bool.not_eq_true] at h2
        have hs : skipRow row = false := by simp [skipRow, h1, h2]
        simp [dataLoop, h1, h2, hs, ih]

/-- The later-variant data loop is the four-way row filter followed by
record construction. -/
theorem dataLoopV2_eq (rows : List Row) (d url : String) (m : Mapping) :
    dataLoopV2 rows d url m
      = (rows.filter fun r => !skipRowV2 r).map (buildRecordV2 d url m) := by
  induction rows with
  | nil => rfl
  | cons row rest ih =>
    by_cases h1 : (rowAllEmpty row || is_header_row row) = true
    · have hs : skipRowV2 row = true := by simp [skipRowV2, h1]
      simp [dataLoopV2, h1, hs, ih]
    · rw [Bool.not_eq_true] at h1
      by_cases h2 : isDistrictTitleRow row = true
      · have hs : skipRowV2 row = true := by simp [skipRowV2, h2]
        simp [dataLoopV2, h1, h2, hs, ih]
      · rw [Bool.not_eq_true] at h2
        by_cases h3 : isSummaryRow row = true
        · have hs : skipRowV2 row = true := by simp [skipRowV2, h3]
          simp [dataLoopV2, h1, h2, h3, hs, ih]
        · rw [Bool.not_eq_true] at h3
          have hs : skipRowV2 row = false := by simp [skipRowV2, h1, h2, h3]
          simp [dataLoopV2, h1, h2, h3, hs, ih]

/-- Storing under any name other than `"Council District"` leaves the
district field unchanged. -/
theorem setField_ne_councilDistrict (r : Record) {name : String} (v : String)
    (h : ¬ name = "Council District") :
    (setField r name v).councilDistrict = r.councilDistrict := by
  unfold setField
  rw [if_neg h]
  repeat' split
  all_goals rfl

/-- The cell-copy loop leaves the district field unchanged when the mapping
contains no entry for the district column. -/
theorem applyCells_councilDistrict :
    ∀ (row : Row) (r : Record) (m : Mapping) (i : Nat),
      (∀ p ∈ m, p.2 ≠ "Council District") →
      (applyCells r m i row).councilDistrict = r.councilDistrict := by
  intro row
  induction row with
  | nil => intro r m i _; rfl
  | cons c cs ih =>
    intro r m i hyp
    simp only [applyCells]
    cases hl : lookupKey m i with
    | none => exact ih _ m (i + 1) hyp
    | some name =>
      rw [ih _ m (i + 1) hyp]
      exact setField_ne_councilDistrict r _ (hyp (i, name) (lookupKey_mem m i name hl))

/-- A record built with a district-free mapping carries the group key in
its district column. -/
theorem buildRecord_councilDistrict (d : String) (m : Mapping) (row : Row)
    (hyp : ∀ p ∈ m, p.2 ≠ "Council District") :
    (buildRecord d m row).councilDistrict = d := by
  unfold buildRecord
  exact applyCells_councilDistrict row _ m 0 hyp

/-- The derived flag column always holds `"true"` or `"false"`. -/
theorem buildRecord_isAdu (d : String) (m : Mapping) (row : Row) :
    (buildRecord d m row).isAdu = "true" ∨ (buildRecord d m row).isAdu = "false" := by
  unfold buildRecord
  by_cases h :
      hasAduWord (pyLower (applyCells { emptyRecord with councilDistrict := d } m 0 row).projectDescription) = true
  · left; simp [h]
  · right; simp [h]

/-- No canonical name in the synonym table's value column is the district
column or the derived flag column. -/
theorem header_map_values_ne :
    ∀ v ∈ header_map.map Prod.snd, v ≠ "Council District" ∧ v ≠ "Is ADU" := by
  decide

/-- Every record produced by `process_table` without an inherited mapping
carries the group key in its district column: the header-derived mapping
never targets the district column. -/
theorem process_table_district (T : Table) (d : String) :
    ∀ rec ∈ (process_table T d []).1, rec.councilDistrict = d := by
  intro rec hrec
  simp only [process_table, List.isEmpty_nil, if_true] at hrec
  cases hf : find_header_row T with
  | none => rw [hf] at hrec; simp at hrec
  | some p =>
    obtain ⟨h, m⟩ := p
    rw [hf] at hrec
    simp only at hrec
    obtain ⟨r, _, _, hrm, _⟩ := find_header_row_spec T h m hf
    rw [dataLoop_eq] at hrec
    obtain ⟨row, _, heq⟩ := List.mem_map.mp hrec
    rw [← heq]
    refine buildRecord_councilDistrict d m row fun p hp => ?_
    have hv : p.2 ∈ header_map.map Prod.snd := by
      subst hrm
      exact rowMapping_values r 0 p hp
    exact (header_map_values_ne p.2 hv).1

/-- If the first `k` rows all satisfy the skip filter, the data loop may
start `k` rows later. -/
theorem dataLoop_drop_skipped :
    ∀ (k : Nat) (rows : List Row) (d : String) (m : Mapping),
      (∀ i < k, ∀ r, rows[i]? = some r → skipRow r = true) →
      dataLoop rows d m = dataLoop (rows.drop k) d m := by
  intro k
  induction k with
  | zero => intro rows d m _; rfl
  | succ n ih =>
    intro rows d m hyp
    cases rows with
    | nil => simp
    | cons row rest =>
      have h0 : skipRow row = true := hyp 0 (Nat.succ_pos n) row (by simp)
      have hstep : dataLoop (row :: rest) d m = dataLoop rest d m := by
        by_cases h1 : (rowAllEmpty row || is_header_row row) = true
        · simp [dataLoop, h1]
        · rw [Bool.not_eq_true] at h1
          have h2 : isDistrictTitleRow row = true := by
            simp only [skipRow, h1, Bool.false_or] at h0
            exact h0
          simp [dataLoop, h1, h2]
      rw [hstep, List.drop_succ_cons]
      exact ih rest d m fun i hi r hr => hyp (i + 1) (Nat.succ_lt_succ hi) r (by simpa using hr)

/-- Every record produced by `process_table` is built (with the mapping
actually used) from a row of `T.dropLast`. -/
theorem process_table_mem (T : Table) (d : String) (m : Mapping) :
    ∀ rec ∈ (process_table T d m).1,
      ∃ row ∈ T.dropLast, rec = buildRecord d (process_table T d m).2 row := by
  intro rec hrec
  by_cases hm : m.isEmpty = true
  · simp only [process_table, hm, if_true] at hrec ⊢
    cases hf : find_header_row T with
    | none => rw [hf] at hrec; simp at hrec
    | some p =>
      obtain ⟨h, m'⟩ := p
      rw [hf] at hrec
      replace hrec : rec ∈ dataLoop (T.dropLast.drop (h + 1)) d m' := hrec
      rw [dataLoop_eq] at hrec
      obtain ⟨row, hmem, heq⟩ := List.mem_map.mp hrec
      exact ⟨row, List.mem_of_mem_drop (List.mem_filter.mp hmem).1, heq.symm⟩
  · simp only [process_table, hm, Bool.false_eq_true, if_false] at hrec ⊢
    rw [dataLoop_eq] at hrec
    obtain ⟨row, hmem, heq⟩ := List.mem_map.mp hrec
    exact ⟨row, (List.mem_filter.mp hmem).1, heq.symm⟩

/-! ## The claims -/

/-- C6: the `table[start_idx:-1]` slice of `process_table` never reaches
the final row, whether the mapping was supplied or freshly found: every
emitted record is built from a row of `T.dropLast`, and a table of `N ≥ 3`
rows whose header is found at row 0 yields at most `N - 2` records. -/
theorem C6_last_row_excluded (T : Table) (d : String) (m : Mapping) :
    (∀ rec ∈ (process_table T d m).1,
       ∃ row ∈ T.dropLast, rec = buildRecord d (process_table T d m).2 row)
    ∧ (3 ≤ T.length → ∀ m', find_header_row T = some (0, m') →
       (process_table T d []).1.length ≤ T.length - 2) := by
  constructor
  · exact process_table_mem T d m
  · intro _ m' hf
    have hps : (process_table T d []).1 = dataLoop (T.dropLast.drop 1) d m' := by
      simp [process_table, hf]
    rw [hps, dataLoop_eq]
    have hlen := List.length_filter_le
      (fun r => !skipRow r) (T.dropLast.drop 1)
    simp only [List.length_map]
    have hdrop : (T.dropLast.drop 1).length = T.length - 1 - 1 := by
      simp [List.length_drop, List.length_dropLast]
    omega

/-- C6 witness: a concrete 4-row table with the header at row 0 yields
at most 2 records. -/
theorem C6_last_row_excluded_witness :
    (process_table [[some "Case"], [some "c1"], [some "c2"], [some "trail"]] "3" []).1.length
      ≤ [[some "Case"], [some "c1"], [some "c2"], [some "trail"]].length - 2 :=
  (C6_last_row_excluded [[some "Case"], [some "c1"], [some "c2"], [some "trail"]] "3" []).2
    (by decide) [(0, "Case Number")] (by decide)

/-- C7: the Column Mapper normalizes and case-folds the label; an exact hit
in the synonym table wins (it is returned before the substring pass runs,
whatever other keys occur inside the label), and when no key equals or is
contained in the label the mapper returns the no-mapping signal `none`. -/
theorem C7_column_mapper (label : String) :
    (∀ v, lookupKey header_map (pyLower (clean_text label)) = some v →
        map_column_name label = some v)
    ∧ ((∀ p ∈ header_map, pyIn p.1 (pyLower (clean_text label)) = false) →
        map_column_name label = none) := by
  constructor
  · intro v hv
    unfold map_column_name
    rw [hv]
  · intro hyp
    unfold map_column_name
    rw [lookupKey_eq_none hyp]
    exact firstSubMatch_eq_none hyp

/-- C7 witness: `"Case Number"` is an exact key (even though the distinct
key `"case"` is also a substring of it) and maps to its own canonical
value; an alien label maps to `none`. -/
theorem C7_column_mapper_witness :
    map_column_name "Case Number" = some "Case Number" ∧ map_column_name "zzz" = none :=
  ⟨(C7_column_mapper "Case Number").1 "Case Number" (by decide),
   (C7_column_mapper "zzz").2 (by decide)⟩

/-- If no row both classifies as a header and yields a non-empty mapping,
the header search fails. -/
theorem find_header_row_eq_none {T : Table}
    (hyp : ∀ r ∈ T, is_header_row r = false ∨ rowMapping 0 r = []) :
    find_header_row T = none := by
  induction T with
  | nil => rfl
  | cons r rs ih =>
    have hr := hyp r (List.mem_cons_self _ _)
    have hc : (is_header_row r && !(rowMapping 0 r).isEmpty) = false := by
      rcases hr with h | h <;> simp [h]
    simp [find_header_row, hc, ih fun x hx => hyp x (List.mem_cons_of_mem _ hx)]

/-- C8: a table in which no row classifies as a header with at least one
resolvable column makes `process_table` return empty records and an empty
mapping, and the walker survives it — the step on such a table (with an
active district, no active mapping, and no group-title first cell) only
extends the continuation buffer and moves on. -/
theorem C8_unparseable_table (T : Table) (d : String)
    (hyp : ∀ r ∈ T, is_header_row r = false ∨ rowMapping 0 r = []) :
    process_table T d [] = ([], [])
    ∧ ∀ s : WalkState, s.mapping = [] → s.district.isEmpty = false →
        2 ≤ T.length → pyIn "Council District" (firstCellStr T) = false →
        walkStep s T = { s with currentTable := s.currentTable ++ T } := by
  have hf : find_header_row T = none := find_header_row_eq_none hyp
  have hpt : process_table T d [] = ([], []) := by
    simp [process_table, hf]
  refine ⟨hpt, ?_⟩
  intro s hmap hdist hlen hcd
  have hlt : ¬ T.length < 2 := by omega
  have hpt2 : process_table T s.district [] = ([], []) := by
    simp [process_table, hf]
  simp [walkStep, hlt, hcd, hdist, hmap, hpt2]

/-- C8 witness: a concrete keyword-free table is returned as
empty-records/empty-mapping and merely buffered by the walker. -/
theorem C8_unparseable_table_witness :
    process_table [[some "x"], [some "y"]] "3" [] = ([], [])
    ∧ walkStep ⟨"3", [], [], []⟩ [[some "x"], [some "y"]]
        = ⟨"3", [], [[some "x"], [some "y"]], []⟩ := by
  have h := C8_unparseable_table [[some "x"], [some "y"]] "3" (by decide)
  refine ⟨h.1, ?_⟩
  have h2 := h.2 ⟨"3", [], [], []⟩ rfl (by decide) (by decide) (by decide)
  simpa using h2

/-- C9: a column mapping built from a header row never maps any column
index to `"Council District"` or `"Is ADU"` (the synonym table has no such
values), so these two record fields are populated only from the active
group key and from the ADU-flag derivation: every record of the
fresh-mapping path carries the group key verbatim and a derived boolean
string. -/
theorem C9_mapping_never_district (T : Table) (d : String) :
    (∀ h m, find_header_row T = some (h, m) →
       ∀ p ∈ m, p.2 ≠ "Council District" ∧ p.2 ≠ "Is ADU")
    ∧ (∀ rec ∈ (process_table T d []).1,
       rec.councilDistrict = d ∧ (rec.isAdu = "true" ∨ rec.isAdu = "false")) := by
  constructor
  · intro h m hf p hp
    obtain ⟨r, _, _, hrm, _⟩ := find_header_row_spec T h m hf
    subst hrm
    exact header_map_values_ne p.2 (rowMapping_values r 0 p hp)
  · intro rec hrec
    refine ⟨process_table_district T d rec hrec, ?_⟩
    obtain ⟨row, _, heq⟩ := process_table_mem T d [] rec hrec
    rw [heq]
    exact buildRecord_isAdu d _ row

/-- C9 witness: on a concrete table the found mapping's value is neither
reserved column, and the emitted record keeps the stamped district and a
boolean flag. -/
theorem C9_mapping_never_district_witness :
    ("Case Number" ≠ "Council District" ∧ "Case Number" ≠ "Is ADU")
    ∧ (Record.mk "3" "" "c1" "" "" "" "" "" "" "false").councilDistrict = "3"
    ∧ ((Record.mk "3" "" "c1" "" "" "" "" "" "" "false").isAdu = "true"
        ∨ (Record.mk "3" "" "c1" "" "" "" "" "" "" "false").isAdu = "false") := by
  have h := C9_mapping_never_district [[some "Case"], [some "c1"], [some "t"]] "3"
  refine ⟨h.1 0 [(0, "Case Number")] (by decide) (0, "Case Number") (by decide), ?_, ?_⟩
  · exact (h.2 (Record.mk "3" "" "c1" "" "" "" "" "" "" "false") (by decide)).1
  · exact (h.2 (Record.mk "3" "" "c1" "" "" "" "" "" "" "false") (by decide)).2

/-- C5: with a supplied mapping, the later-variant Table Processor emits
exactly the rows of `T.dropLast` surviving the four filters — (a) all
cells empty/null, (b) header re-classification, (c) district group-title
with all other cells `"none"`, (d) summary-marker line — in that order; in
particular no summary-marker row survives the filter. -/
theorem C5_row_filter (T : Table) (d url : String) (m : Mapping) (hm : m ≠ []) :
    (processTableV2 T d url m).1
      = ((T.dropLast.filter fun r =>
            !(((rowAllEmpty r || is_header_row r) || isDistrictTitleRow r) || isSummaryRow r)).map
          (buildRecordV2 d url m))
    ∧ ∀ row, isSummaryRow row = true →
        row ∉ T.dropLast.filter fun r =>
          !(((rowAllEmpty r || is_header_row r) || isDistrictTitleRow r) || isSummaryRow r) := by
  have hme : m.isEmpty = false := by
    cases m with
    | nil => exact absurd rfl hm
    | cons p rest => rfl
  constructor
  · have hpt : (processTableV2 T d url m).1 = dataLoopV2 T.dropLast d url m := by
      simp [processTableV2, hme]
    rw [hpt, dataLoopV2_eq]
    rfl
  · intro row hsum hmem
    have hkeep := (List.mem_filter.mp hmem).2
    simp [skipRowV2, hsum] at hkeep

/-- C5 witness: a summary-marker row inside a concrete table is dropped
while an ordinary data row survives. -/
theorem C5_row_filter_witness :
    (processTableV2 [[some "c1"], [some "Total records: 12"], [some "t"]] "3" "u"
        [(0, "Case Number")]).1
      = [RecordV2.mk "3" "" "c1" "" "" "" "" "" "" "false" "u"] := by
  have h := C5_row_filter [[some "c1"], [some "Total records: 12"], [some "t"]] "3" "u"
    [(0, "Case Number")] (by decide)
  rw [h.1]
  decide

/-- With the initial walker state (no district established), a table that
is too small or has no group-title first cell changes nothing. -/
theorem walkStep_initState (T : Table)
    (h : T.length < 2 ∨ pyIn "Council District" (firstCellStr T) = false) :
    walkStep ⟨"", [], [], []⟩ T = ⟨"", [], [], []⟩ := by
  by_cases hl : T.length < 2
  · simp [walkStep, hl]
  · rcases h with h | h
    · exact absurd h hl
    · simp [walkStep, hl, h, show ("" : String).isEmpty = true from rfl]

/-- Folding the walker from the initial state over group-title-free tables
stays in the initial state. -/
theorem foldl_walkStep_initState :
    ∀ pre : List Table,
      (∀ T ∈ pre, T.length < 2 ∨ pyIn "Council District" (firstCellStr T) = false) →
      pre.foldl walkStep ⟨"", [], [], []⟩ = ⟨"", [], [], []⟩ := by
  intro pre
  induction pre with
  | nil => intro _; rfl
  | cons T ts ih =>
    intro hyp
    rw [List.foldl_cons, walkStep_initState T (hyp T (List.mem_cons_self _ _))]
    exact ih fun x hx => hyp x (List.mem_cons_of_mem _ hx)

/-- C10: the Document Walker produces no records from (and does not buffer)
any table encountered before the first table whose leading cell contains
the group-title trigger `"Council District"`: such a prefix of the document
contributes nothing, so a document with no group-title table at all yields
the empty record list. -/
theorem C10_skip_before_group (pre rest : List Table)
    (hyp : ∀ T ∈ pre, T.length < 2 ∨ pyIn "Council District" (firstCellStr T) = false) :
    extract_tables (pre ++ rest) = extract_tables rest := by
  unfold extract_tables
  rw [List.foldl_append, foldl_walkStep_initState pre hyp]

/-- C10 witness: a document consisting of one keyword-free table yields no
records at all. -/
theorem C10_skip_before_group_witness :
    extract_tables [[[some "x"], [some "y"]]] = [] := by
  have h := C10_skip_before_group [[[some "x"], [some "y"]]] [] (by decide)
  rw [List.append_nil] at h
  rw [h]
  rfl

/-- C4 counterexample: reprocessing with the returned mapping is NOT
idempotent in general.  On a table whose header sits at row 1 below a
keyword-free row, the first call (header search) starts after the header,
but the second call (mapping supplied) starts at row 0 and additionally
emits the pre-header row, so the two record lists differ. -/
theorem C4_idempotence_counterexample :
    (process_table [[some "hello"], [some "case"], [some "x"], [some "t"]] "3" []).2
        = [(0, "Case Number")]
    ∧ (process_table [[some "hello"], [some "case"], [some "x"], [some "t"]] "3"
          [(0, "Case Number")]).1
        ≠ (process_table [[some "hello"], [some "case"], [some "x"], [some "t"]] "3" []).1 := by
  constructor
  · decide
  · decide

/-- C4 as amended: reprocessing with the returned mapping reproduces the
first call's result provided every row before the found header row is
itself skipped by the data-row filter (in particular whenever the header is
the table's first row). -/
theorem C4_idempotence_amended (T : Table) (d : String) (h : Nat) (m : Mapping)
    (hf : find_header_row T = some (h, m))
    (hpre : ∀ i < h, ∀ r, T[i]? = some r → skipRow r = true) :
    process_table T d m = process_table T d [] := by
  obtain ⟨row, hget, hhdr, hrm, hne⟩ := find_header_row_spec T h m hf
  have hme : m.isEmpty = false := by
    cases m with
    | nil => exact absurd rfl hne
    | cons p rest => rfl
  have hrhs : process_table T d [] = (dataLoop (T.dropLast.drop (h + 1)) d m, m) := by
    simp [process_table, hf]
  have hlhs : process_table T d m = (dataLoop T.dropLast d m, m) := by
    simp [process_table, hme]
  rw [hlhs, hrhs]
  have hskip : ∀ i < h + 1, ∀ r, T.dropLast[i]? = some r → skipRow r = true := by
    intro i hi r hr
    rw [List.getElem?_dropLast] at hr
    by_cases hil : i < T.length - 1
    · rw [if_pos hil] at hr
      rcases Nat.lt_succ_iff_lt_or_eq.mp hi with hlt | heq
      · exact hpre i hlt r hr
      · subst heq
        rw [hget] at hr
        injection hr with hr
        subst hr
        simp [skipRow, hhdr]
    · rw [if_neg hil] at hr
      exact absurd hr (by simp)
  rw [dataLoop_drop_skipped (h + 1) T.dropLast d m hskip]

/-- C4 witness: with the header at row 0, both calls agree on a concrete
table. -/
theorem C4_idempotence_amended_witness :
    process_table [[some "case"], [some "x"], [some "t"]] "3" [(0, "Case Number")]
      = process_table [[some "case"], [some "x"], [some "t"]] "3" [] :=
  C4_idempotence_amended [[some "case"], [some "x"], [some "t"]] "3" 0 [(0, "Case Number")]
    (by decide)
    (by intro i hi; exact absurd hi (Nat.not_lt_zero i))

/-- Accepted parses render as one of the fifteen canonical numerals. -/
theorem toString_int_mem_districtOutputs {n : Int} (h1 : 1 ≤ n) (h2 : n ≤ 15) :
    toString n ∈ districtOutputs := by
  interval_cases n <;> decide

/-- The sanitizer only ever returns `""` or a canonical numeral in
`[1,15]`. -/
theorem validate_district_range (s : String) : validate_district s ∈ districtOutputs := by
  cases h : pyParseInt s with
  | some n =>
    by_cases hb : (decide (1 ≤ n) && decide (n ≤ 15)) = true
    · simp only [validate_district, h, hb, if_true]
      simp only [Bool.and_eq_true, decide_eq_true_eq] at hb
      exact toString_int_mem_districtOutputs hb.1 hb.2
    · rw [Bool.not_eq_true] at hb
      simp only [validate_district, h, hb, Bool.false_eq_true, if_false]
      decide
  | none =>
    by_cases hl : 1 < s.length
    · cases h2 : pyParseInt (s.drop 1) with
      | some n =>
        by_cases hb : (decide (1 ≤ n) && decide (n ≤ 15)) = true
        · simp only [validate_district, h, hl, if_true, h2, hb]
          simp only [Bool.and_eq_true, decide_eq_true_eq] at hb
          exact toString_int_mem_districtOutputs hb.1 hb.2
        · rw [Bool.not_eq_true] at hb
          simp only [validate_district, h, hl, if_true, h2, hb, Bool.false_eq_true, if_false]
          decide
      | none =>
        simp only [validate_district, h, hl, if_true, h2]
        decide
    · simp only [validate_district, h, hl, if_false]
      decide

/-- C1 counterexample: the Table Processor stores the group key into the
district column unsanitized.  The group key `"16"` is reachable (title
`"Council District -- 16"`), the processor stamps it verbatim into the
emitted record, yet the sanitizer rejects `"16"` and indeed can never
output it — so not every stored district value has passed the sanitizer. -/
theorem C1_district_sanitizer_counterexample :
    extract_district_from_title "Council District -- 16" = "16"
    ∧ (process_table [[some "z"], [some "w"]] "16" [(0, "Address")]).1.map Record.councilDistrict
        = ["16"]
    ∧ validate_district "16" = ""
    ∧ "16" ∉ districtOutputs := by
  refine ⟨by decide, by decide, by decide, by decide⟩

/-- C1 as amended: the district sanitizer (modelled from the spec) maps a
successful parse to its canonical numeral exactly when the value lies in
`[1,15]` and to `""` otherwise; when the parse fails it retries on all
characters after the first exactly when the string is longer than one
character, with the same acceptance rule; in every other case it returns
`""`; its outputs are always `""` or a numeral in `[1,15]`; the spec's five
test vectors hold; and the Table Processor stamps the grouping key into
each record's district column as-is (the sanitizer is never applied on that
path, and no mapped cell can target the district column). -/
theorem C1_district_sanitizer_amended :
    (∀ (s : String) (n : Int), pyParseInt s = some n →
        validate_district s = if 1 ≤ n && n ≤ 15 then toString n else "")
    ∧ (∀ s : String, pyParseInt s = none → 1 < s.length →
        ∀ n : Int, pyParseInt (s.drop 1) = some n →
          validate_district s = if 1 ≤ n && n ≤ 15 then toString n else "")
    ∧ (∀ s : String, pyParseInt s = none →
        (¬ 1 < s.length ∨ pyParseInt (s.drop 1) = none) → validate_district s = "")
    ∧ (∀ s : String, validate_district s ∈ districtOutputs)
    ∧ (validate_district "7" = "7" ∧ validate_district "16" = ""
        ∧ validate_district "A7" = "7" ∧ validate_district "A20" = ""
        ∧ validate_district "" = "")
    ∧ (∀ (T : Table) (d : String), ∀ rec ∈ (process_table T d []).1,
        rec.councilDistrict = d) := by
  refine ⟨?_, ?_, ?_, validate_district_range, ⟨by decide, by decide, by decide, by decide, by decide⟩, ?_⟩
  · intro s n h
    simp only [validate_district, h]
  · intro s h hl n h2
    simp only [validate_district, h, hl, if_true, h2]
  · intro s h hcase
    rcases hcase with hc | hc
    · simp only [validate_district, h, hc, if_false]
    · by_cases hl : 1 < s.length
      · simp only [validate_district, h, hl, if_true, hc]
      · simp only [validate_district, h, hl, if_false]
  · intro T d rec hrec
    exact process_table_district T d rec hrec

/-- C1 witness: the offset-retry vector and the verbatim group-key
stamping, at concrete inputs. -/
theorem C1_district_sanitizer_amended_witness :
    validate_district "A7" = "7"
    ∧ (Record.mk "3" "" "c1" "" "" "" "" "" "" "false").councilDistrict = "3" :=
  ⟨C1_district_sanitizer_amended.2.2.2.2.1.2.2.1,
   C1_district_sanitizer_amended.2.2.2.2.2 [[some "Case"], [some "c1"], [some "t"]] "3"
     (Record.mk "3" "" "c1" "" "" "" "" "" "" "false") (by decide)⟩

/-- A mapping is good when all of its values come from the synonym table's
value column — true of every header-derived mapping. -/
def goodMapping (m : Mapping) : Prop :=
  ∀ p ∈ m, p.2 ∈ header_map.map Prod.snd

/-- The walker invariant for one document: the active mapping is
header-derived and every accumulated record carries the document URL. -/
def urlInv (url : String) (s : WalkStateV2) : Prop :=
  goodMapping s.mapping ∧ ∀ rec ∈ s.allData, rec.pdfUrl = url

/-- Storing under any name other than `"PDF URL"` leaves the provenance
field unchanged. -/
theorem setFieldV2_pdfUrl (r : RecordV2) {name : String} (v : String)
    (h : ¬ name = "PDF URL") : (setFieldV2 r name v).pdfUrl = r.pdfUrl := by
  unfold setFieldV2
  repeat' split
  all_goals rfl

/-- The synonym table's values never name the provenance column. -/
theorem header_map_values_ne_url : ∀ v ∈ header_map.map Prod.snd, v ≠ "PDF URL" := by
  decide

/-- The later-variant cell-copy loop never touches the provenance field
when the mapping is header-derived. -/
theorem applyCellsV2_pdfUrl :
    ∀ (row : Row) (r : RecordV2) (m : Mapping) (i : Nat),
      (∀ p ∈ m, p.2 ≠ "PDF URL") →
      (applyCellsV2 r m i row).pdfUrl = r.pdfUrl := by
  intro row
  induction row with
  | nil => intro r m i _; rfl
  | cons c cs ih =>
    intro r m i hyp
    simp only [applyCellsV2]
    cases hl : lookupKey m i with
    | none => exact ih _ m (i + 1) hyp
    | some name =>
      rw [ih _ m (i + 1) hyp]
      exact setFieldV2_pdfUrl r _ (hyp (i, name) (lookupKey_mem m i name hl))

/-- Every later-variant record built with a header-derived mapping carries
the stamped URL. -/
theorem buildRecordV2_pdfUrl (d url : String) (m : Mapping) (row : Row)
    (hm : ∀ p ∈ m, p.2 ≠ "PDF URL") :
    (buildRecordV2 d url m row).pdfUrl = url := by
  unfold buildRecordV2
  exact applyCellsV2_pdfUrl row _ m 0 hm

/-- Good mappings never target the provenance column. -/
theorem goodMapping_ne_url {m : Mapping} (hm : goodMapping m) :
    ∀ p ∈ m, p.2 ≠ "PDF URL" :=
  fun p hp => header_map_values_ne_url p.2 (hm p hp)

/-- The mapping returned by the later-variant processor is header-derived
whenever the supplied one was. -/
theorem processTableV2_good (T : Table) (d url : String) (m : Mapping)
    (hm : goodMapping m) : goodMapping (processTableV2 T d url m).2 := by
  by_cases he : m.isEmpty = true
  · simp only [processTableV2, he, if_true]
    cases hf : find_header_row T with
    | none => intro p hp; simp at hp
    | some q =>
      obtain ⟨h, m'⟩ := q
      intro p hp
      replace hp : p ∈ m' := hp
      obtain ⟨r, _, _, hrm, _⟩ := find_header_row_spec T h m' hf
      subst hrm
      exact rowMapping_values r 0 p hp
  · simp only [processTableV2, he, Bool.false_eq_true, if_false]
    exact hm

/-- Every record emitted by the later-variant processor carries the
stamped URL (with a header-derived supplied mapping, or none). -/
theorem processTableV2_pdfUrl (T : Table) (d url : String) (m : Mapping)
    (hm : goodMapping m) :
    ∀ rec ∈ (processTableV2 T d url m).1, rec.pdfUrl = url := by
  intro rec hrec
  by_cases he : m.isEmpty = true
  · simp only [processTableV2, he, if_true] at hrec
    cases hf : find_header_row T with
    | none => rw [hf] at hrec; simp at hrec
    | some q =>
      obtain ⟨h, m'⟩ := q
      rw [hf] at hrec
      replace hrec : rec ∈ dataLoopV2 (T.dropLast.drop (h + 1)) d url m' := hrec
      rw [dataLoopV2_eq] at hrec
      obtain ⟨row, _, heq⟩ := List.mem_map.mp hrec
      rw [← heq]
      obtain ⟨r, _, _, hrm, _⟩ := find_header_row_spec T h m' hf
      refine buildRecordV2_pdfUrl d url m' row (goodMapping_ne_url ?_)
      subst hrm
      exact fun p hp => rowMapping_values r 0 p hp
  · simp only [processTableV2, he, Bool.false_eq_true, if_false] at hrec
    rw [dataLoopV2_eq] at hrec
    obtain ⟨row, _, heq⟩ := List.mem_map.mp hrec
    rw [← heq]
    exact buildRecordV2_pdfUrl d url m row (goodMapping_ne_url hm)

/-- Concatenating two URL-stamped record lists stays URL-stamped. -/
theorem mem_append_pdfUrl {l1 l2 : List RecordV2} {url : String}
    (a : ∀ rec ∈ l1, rec.pdfUrl = url) (b : ∀ rec ∈ l2, rec.pdfUrl = url) :
    ∀ rec ∈ l1 ++ l2, rec.pdfUrl = url := by
  intro rec hr
  rcases List.mem_append.mp hr with h | h
  · exact a rec h
  · exact b rec h

/-- The buffer flush preserves the walker invariant. -/
theorem flushStateV2_inv (url : String) (s : WalkStateV2) (h : urlInv url s) :
    urlInv url (flushStateV2 url s) := by
  unfold flushStateV2
  split
  · exact ⟨h.1, mem_append_pdfUrl h.2 (processTableV2_pdfUrl _ _ _ _ h.1)⟩
  · exact h

/-- The group-change reaction preserves the walker invariant. -/
theorem newGroupStateV2_inv (url : String) (s : WalkStateV2) (fc : String)
    (h : urlInv url s) : urlInv url (newGroupStateV2 url s fc) := by
  unfold newGroupStateV2
  split
  · exact ⟨fun p hp => absurd hp (List.not_mem_nil p), (flushStateV2_inv url s h).2⟩
  · exact h

/-- The post-group-change walker core preserves the invariant. -/
theorem walkStepV2Core_inv (url : String) (s1 : WalkStateV2) (T : Table)
    (h1 : urlInv url s1) : urlInv url (walkStepV2Core url s1 T) := by
  unfold walkStepV2Core
  split
  · exact h1
  split
  · exact ⟨h1.1, h1.2⟩
  split
  · exact ⟨processTableV2_good T _ url _ h1.1,
      mem_append_pdfUrl h1.2 (processTableV2_pdfUrl T _ url _ h1.1)⟩
  · exact ⟨h1.1,
      mem_append_pdfUrl h1.2 (processTableV2_pdfUrl T _ url _ h1.1)⟩

/-- One walker step preserves the invariant. -/
theorem walkStepV2_inv (url : String) (s : WalkStateV2) (T : Table)
    (h : urlInv url s) : urlInv url (walkStepV2 url s T) := by
  unfold walkStepV2
  split
  · exact h
  · exact walkStepV2Core_inv url _ T (newGroupStateV2_inv url s (firstCellStr T) h)

/-- C3: the later-variant canonical schema (modelled from the spec) carries
a provenance column, and processing a document with its retrieval URL
supplied stamps that URL onto every produced record. -/
theorem C3_provenance (url : String) (tables : List Table) :
    "PDF URL" ∈ STANDARD_COLUMNS_V2
    ∧ ∀ rec ∈ extractTablesV2 url tables, rec.pdfUrl = url := by
  refine ⟨by decide, ?_⟩
  have hfold : ∀ (ts : List Table) (s : WalkStateV2), urlInv url s →
      urlInv url (ts.foldl (walkStepV2 url) s) := by
    intro ts
    induction ts with
    | nil => intro s h; exact h
    | cons T rest ih =>
      intro s h
      exact ih _ (walkStepV2_inv url s T h)
  have hinit : urlInv url ⟨"", [], [], []⟩ :=
    ⟨fun p hp => absurd hp (List.not_mem_nil p),
     fun rec hr => absurd hr (List.not_mem_nil rec)⟩
  exact (flushStateV2_inv url _ (hfold tables _ hinit)).2

/-- C3 witness: a concrete two-table document with URL `"u"` yields records
all stamped `"u"`. -/
theorem C3_provenance_witness :
    (RecordV2.mk "3" "" "c1" "" "" "" "" "" "" "false" "u").pdfUrl = "u" :=
  (C3_provenance "u"
      [[[some "Council District -- 3"], [none]], [[some "Case"], [some "c1"], [some "t"]]]).2
    (RecordV2.mk "3" "" "c1" "" "" "" "" "" "" "false" "u") (by decide)

/-- C2: continuation merging duplicates records.  On a document with a
group-title table, a header table A (1 header row, 2 data rows, 1 trailing
row) and a continuation table B (2 data rows, no header), the walker first
emits A's data rows, resets the buffer to A anyway, appends B to the
buffer, and at the final flush reprocesses A++B with A's mapping — so A's
data rows appear twice, A's trailing row is emitted, and B's last data row
is dropped: 6 records instead of the 4 the claim's count formula allows,
with the first data row emitted twice. -/
theorem C2_continuation_duplication :
    extract_tables
        [[[some "Council District -- 3"], [none]],
         [[some "Case", some "Address"], [some "c1", some "a1"], [some "c2", some "a2"],
          [some "t1", some "t2"]],
         [[some "b1", some "x1"], [some "b2", some "x2"]]]
      = [Record.mk "3" "" "c1" "a1" "" "" "" "" "" "false",
         Record.mk "3" "" "c2" "a2" "" "" "" "" "" "false",
         Record.mk "3" "" "c1" "a1" "" "" "" "" "" "false",
         Record.mk "3" "" "c2" "a2" "" "" "" "" "" "false",
         Record.mk "3" "" "t1" "t2" "" "" "" "" "" "false",
         Record.mk "3" "" "b1" "x1" "" "" "" "" "" "false"]
    ∧ (extract_tables
        [[[some "Council District -- 3"], [none]],
         [[some "Case", some "Address"], [some "c1", some "a1"], [some "c2", some "a2"],
          [some "t1", some "t2"]],
         [[some "b1", some "x1"], [some "b2", some "x2"]]]).count
        (Record.mk "3" "" "c1" "a1" "" "" "" "" "" "false") = 2 := by
  constructor
  · decide
  · decide

end AduScraper
